import Mathlib

/-!
Shallow embedding of the connect-things graph library (src/lib.rs).

Things and connections live behind shared handles (Rc<RefCell<..>>) in the
source.  The embedding models those shared cells as two heaps (lists indexed
by handle id), and the container `Things` carries both heaps together with
its registries (`things`, `connections`) and the dead-item counter
(`dead_amount`).  Handles are heap indices; payload types `T` and `C` are
arbitrary.  Machine integers (`usize`) are modelled as `Nat` with explicit
saturation at `USIZE_MAX`.
-/

namespace ConnectThings

/-- The value of usize MAX on a 64-bit target. -/
def USIZE_MAX : Nat := 18446744073709551615

/-- Rust checked_add followed by unwrap_or(usize::MAX): addition that
saturates at `USIZE_MAX`. -/
def satAdd (a b : Nat) : Nat := if a + b > USIZE_MAX then USIZE_MAX else a + b

/-- Rust checked_mul followed by unwrap_or(usize::MAX): multiplication that
saturates at `USIZE_MAX`. -/
def satMul (a b : Nat) : Nat := if a * b > USIZE_MAX then USIZE_MAX else a * b

/-- The contents of one `ThingInner` cell: local connection list (handle
ids), payload and liveness flag (src/lib.rs, `struct ThingInner`). -/
structure ThingObj (T : Type) where
  connections : List Nat
  data : T
  is_alive : Bool
  deriving DecidableEq

/-- The shape of a `ConnectionInner`: directed with ordered endpoints, or
undirected with a stored pair (src/lib.rs, `enum ConnectionInner`). -/
inductive ConnShape where
  | directed (src dst : Nat)
  | undirected (fst snd : Nat)
  deriving DecidableEq

/-- The contents of one `ConnectionInner` cell. -/
structure ConnObj (C : Type) where
  shape : ConnShape
  data : C
  is_alive : Bool
  deriving DecidableEq

/-- The container `Things<T, C>` (src/lib.rs) together with the two heaps of
shared cells its handles point into. -/
@[ext]
structure Things (T C : Type) where
  thingHeap : List (ThingObj T)
  connHeap : List (ConnObj C)
  things : List Nat
  connections : List Nat
  dead_amount : Nat
  deriving DecidableEq

section ListHelpers

variable {α : Type}

theorem lt_of_getq_some : ∀ (l : List α) (n : Nat) (a : α), l[n]? = some a →
    n < l.length
  | [], _, _, h => by simp at h
  | _ :: _, 0, _, _ => by simp
  | _ :: xs, n + 1, a, h => by
    simp only [List.getElem?_cons_succ] at h
    simpa using lt_of_getq_some xs n a h

theorem set_getq_eq : ∀ (l : List α) (n : Nat) (a : α), l[n]? = some a →
    l.set n a = l
  | [], _, _, h => by simp at h
  | x :: xs, 0, a, h => by
    simp only [List.getElem?_cons_zero, Option.some_inj] at h
    simp [h]
  | x :: xs, n + 1, a, h => by
    simp only [List.getElem?_cons_succ] at h
    simp [set_getq_eq xs n a h]

theorem filter_idem (p : α → Bool) : ∀ l : List α,
    (l.filter p).filter p = l.filter p
  | [] => rfl
  | x :: xs => by
    by_cases h : p x
    · simp [List.filter_cons, h, filter_idem p xs]
    · simp [List.filter_cons, h, filter_idem p xs]

end ListHelpers

variable {T C : Type}

/-- Liveness of the connection cell behind handle `c` (Connection
is_alive in src/lib.rs); a dangling index counts as not alive. -/
def connAliveH (ch : List (ConnObj C)) (c : Nat) : Bool :=
  match ch[c]? with
  | some o => o.is_alive
  | none => false

/-- Connection kill (src/lib.rs, `ConnectionInner::kill`): flips only this
connection's flag. -/
def connKillH (ch : List (ConnObj C)) (c : Nat) : List (ConnObj C) :=
  match ch[c]? with
  | some o => ch.set c { o with is_alive := false }
  | none => ch

/-- Liveness of the thing cell behind handle `t` (`Thing::is_alive`). -/
def thingAliveH (th : List (ThingObj T)) (t : Nat) : Bool :=
  match th[t]? with
  | some o => o.is_alive
  | none => false

/-- Payload of the thing cell behind handle `t`. -/
def thingDataH (th : List (ThingObj T)) (t : Nat) : Option T :=
  th[t]?.map ThingObj.data

/-- Local connection list of the thing behind handle `t`. -/
def localListH (th : List (ThingObj T)) (t : Nat) : List Nat :=
  match th[t]? with
  | some o => o.connections
  | none => []

/-- The loop inside `Thing::kill` (src/lib.rs): walk the local connection
list, kill every connection that is still alive at that moment, and count
the ones just killed. -/
def killConnsH : List (ConnObj C) → List Nat → List (ConnObj C) × Nat
  | ch, [] => (ch, 0)
  | ch, c :: cs =>
    if connAliveH ch c then
      ((killConnsH (connKillH ch c) cs).1, (killConnsH (connKillH ch c) cs).2 + 1)
    else
      killConnsH ch cs

/-- `Thing::kill` (src/lib.rs): kill the still-alive local connections, then
mark the thing itself dead; return the count of items just killed plus one
for the thing itself. -/
def thingKillH (th : List (ThingObj T)) (ch : List (ConnObj C)) (t : Nat) :
    List (ThingObj T) × List (ConnObj C) × Nat :=
  match th[t]? with
  | some o =>
    (th.set t { o with is_alive := false },
     (killConnsH ch o.connections).1,
     (killConnsH ch o.connections).2 + 1)
  | none => (th, ch, 1)

/-- A payload predicate applied through a thing handle (how the `kill`
callback of `Things::kill_things` observes a thing). -/
def matchPH (th : List (ThingObj T)) (p : T → Bool) (t : Nat) : Bool :=
  match thingDataH th t with
  | some d => p d
  | none => false

/-- The `for_each` loop of `Things::kill_things` (src/lib.rs): for every
registered thing matching the predicate, cascade-kill it and fold the
returned amount into the dead counter with saturating addition. -/
def killThingsGo : List (ThingObj T) → List (ConnObj C) → Nat → (T → Bool) →
    List Nat → List (ThingObj T) × List (ConnObj C) × Nat
  | th, ch, dead, _, [] => (th, ch, dead)
  | th, ch, dead, p, t :: ts =>
    if matchPH th p t then
      killThingsGo (thingKillH th ch t).1 (thingKillH th ch t).2.1
        (satAdd dead (thingKillH th ch t).2.2) p ts
    else
      killThingsGo th ch dead p ts

/-- `Things::kill_things` (src/lib.rs lines 1135-1145). -/
def Things.kill_things (s : Things T C) (p : T → Bool) : Things T C :=
  { s with
    thingHeap := (killThingsGo s.thingHeap s.connHeap s.dead_amount p s.things).1,
    connHeap := (killThingsGo s.thingHeap s.connHeap s.dead_amount p s.things).2.1,
    dead_amount := (killThingsGo s.thingHeap s.connHeap s.dead_amount p s.things).2.2 }

/-- A payload predicate applied through a connection handle. -/
def matchCH (ch : List (ConnObj C)) (p : C → Bool) (c : Nat) : Bool :=
  match ch[c]? with
  | some o => p o.data
  | none => false

/-- The loop of `Things::kill_connections` (src/lib.rs lines 1203-1210):
each matching connection is killed; the source then computes
`self.dead_amount.saturating_add(1)` but binds it to `_`, discarding the
value, so the dead counter is left untouched. -/
def killConnectionsGo : List (ConnObj C) → (C → Bool) → List Nat → List (ConnObj C)
  | ch, _, [] => ch
  | ch, p, c :: cs =>
    if matchCH ch p c then
      killConnectionsGo (connKillH ch c) p cs
    else
      killConnectionsGo ch p cs

/-- `Things::kill_connections` (src/lib.rs lines 1203-1210). -/
def Things.kill_connections (s : Things T C) (p : C → Bool) : Things T C :=
  { s with connHeap := killConnectionsGo s.connHeap p s.connections }

/-- `Things::dead_percentage` (src/lib.rs lines 1243-1263): saturating total
and product, floor division; on an empty registry it resets the dead counter
to zero and fails. -/
def Things.dead_percentage (s : Things T C) : Things T C × Except Unit Nat :=
  if satAdd s.things.length s.connections.length = 0 then
    ({ s with dead_amount := 0 }, Except.error ())
  else
    (s, Except.ok (satMul s.dead_amount 100 /
      satAdd s.things.length s.connections.length))

/-- `Thing::clean` (src/lib.rs): drop dead entries from the local list of
the thing behind handle `t`; the connection heap is only read. -/
def thingCleanH (ch : List (ConnObj C)) (th : List (ThingObj T)) (t : Nat) :
    List (ThingObj T) :=
  match th[t]? with
  | some o =>
    th.set t { o with connections := o.connections.filter (fun c => connAliveH ch c) }
  | none => th

/-- The `retain_mut` loop of `Things::clean` (src/lib.rs): keep only alive
things, compacting each survivor's local list as it is visited. -/
def cleanThingsGo (ch : List (ConnObj C)) :
    List (ThingObj T) → List Nat → List (ThingObj T) × List Nat
  | th, [] => (th, [])
  | th, t :: ts =>
    if thingAliveH th t then
      ((cleanThingsGo ch (thingCleanH ch th t) ts).1,
        t :: (cleanThingsGo ch (thingCleanH ch th t) ts).2)
    else
      cleanThingsGo ch th ts

/-- `Things::clean` (src/lib.rs lines 1287-1300). -/
def Things.clean (s : Things T C) : Things T C :=
  { s with
    thingHeap := (cleanThingsGo s.connHeap s.thingHeap s.things).1,
    things := (cleanThingsGo s.connHeap s.thingHeap s.things).2,
    connections := s.connections.filter (fun c => connAliveH s.connHeap c),
    dead_amount := 0 }

/-- `Things::new` (src/lib.rs): empty registries, zero dead counter. -/
def Things.new : Things T C :=
  { thingHeap := [], connHeap := [], things := [], connections := [], dead_amount := 0 }

/-- `Things::new_thing` (src/lib.rs): allocate a fresh alive thing cell with
an empty local list and register its handle. -/
def Things.new_thing (s : Things T C) (d : T) : Things T C × Nat :=
  ({ s with
      thingHeap := s.thingHeap ++ [{ connections := [], data := d, is_alive := true }],
      things := s.things ++ [s.thingHeap.length] },
   s.thingHeap.length)

/-- `Thing::connect` (src/lib.rs lines 188-191): append a connection handle
to the thing's local list. -/
def connectH (th : List (ThingObj T)) (t : Nat) (c : Nat) : List (ThingObj T) :=
  match th[t]? with
  | some o => th.set t { o with connections := o.connections ++ [c] }
  | none => th

/-- `Things::new_directed_connection` (src/lib.rs lines 1026-1037): allocate
the connection cell, connect it on the `from` endpoint, then on the `to`
endpoint, then push it on the container registry. -/
def Things.new_directed_connection (s : Things T C) (src : Nat) (d : C) (dst : Nat) :
    Things T C × Nat :=
  ({ s with
      connHeap := s.connHeap ++
        [{ shape := ConnShape.directed src dst, data := d, is_alive := true }],
      thingHeap := connectH (connectH s.thingHeap src s.connHeap.length) dst s.connHeap.length,
      connections := s.connections ++ [s.connHeap.length] },
   s.connHeap.length)

/-- `Things::new_undirected_connection` (src/lib.rs lines 1060-1070). -/
def Things.new_undirected_connection (s : Things T C) (a b : Nat) (d : C) :
    Things T C × Nat :=
  ({ s with
      connHeap := s.connHeap ++
        [{ shape := ConnShape.undirected a b, data := d, is_alive := true }],
      thingHeap := connectH (connectH s.thingHeap a s.connHeap.length) b s.connHeap.length,
      connections := s.connections ++ [s.connHeap.length] },
   s.connHeap.length)

/-- `Thing::do_for_all_connections` (src/lib.rs lines 250-259): the visitor
is run on every entry of the local list in order; `Do::Take` results are
collected (modelled by `Option`). -/
def do_for_all_connections {R : Type} (s : Things T C) (t : Nat)
    (f : Nat → Option R) : List R :=
  (localListH s.thingHeap t).filterMap f

/-- The `Direction` enum of src/lib.rs. -/
inductive Direction where
  | Towards
  | AwayFrom
  deriving DecidableEq

/-- `ConnectionInner` viewed through payload values only.  All the endpoint
queries of src/lib.rs lines 495-566 compare things with `PartialEq`, which
the crate defines as payload equality, so endpoints are represented here
directly by their payloads. -/
inductive ConnInner (T C : Type) where
  | directed (src dst : T) (data : C) (alive : Bool)
  | undirected (fst snd : T) (data : C) (alive : Bool)

/-- `ConnectionInner::contains` (src/lib.rs lines 495-512): payload-equality
membership of a thing in the connection. -/
def ConnInner.contains [DecidableEq T] : ConnInner T C → T → Bool
  | .directed src dst _ _, x => if src = x ∨ dst = x then true else false
  | .undirected a b _ _, x => if a = x ∨ b = x then true else false

/-- The `Undirected` test (`Connection::is_undirected` in src/lib.rs). -/
def ConnInner.is_undirected : ConnInner T C → Bool
  | .directed _ _ _ _ => false
  | .undirected _ _ _ _ => true

/-- `ConnectionInner::get_direction_relative_to` (src/lib.rs lines 514-527):
the `from` endpoint is compared first, then the `to` endpoint; undirected
connections always fail. -/
def ConnInner.get_direction_relative_to [DecidableEq T] :
    ConnInner T C → T → Except Unit Direction
  | .directed src dst _ _, x =>
    if x = src then Except.ok Direction.AwayFrom
    else if x = dst then Except.ok Direction.Towards
    else Except.error ()
  | .undirected _ _ _ _, _ => Except.error ()

/-- `ConnectionInner::get_other_thing` (src/lib.rs lines 545-566): the first
stored endpoint is compared first; its partner is returned. -/
def ConnInner.get_other_thing [DecidableEq T] :
    ConnInner T C → T → Except Unit T
  | .directed src dst _ _, x =>
    if x = src then Except.ok dst
    else if x = dst then Except.ok src
    else Except.error ()
  | .undirected a b _ _, x =>
    if x = a then Except.ok b
    else if x = b then Except.ok a
    else Except.error ()

/-- Borrow state of a `RefCell`: free, shared by `n` readers, or mutably
borrowed. -/
inductive BorrowSt where
  | free
  | shared (n : Nat)
  | exclusive
  deriving DecidableEq

/-- One payload cell (`Rc<RefCell<..>>` guarding `T`) together with its
dynamic borrow flag. -/
structure Cell (T : Type) where
  data : T
  borrow : BorrowSt
  deriving DecidableEq

/-- Outcome of a payload access.  `conflictError` stands for the recoverable
AccessConflict error the specification describes; `panicked` is an aborted
run of the Rust program (a `BorrowError`/`BorrowMutError` panic). -/
inductive Outcome (R : Type) where
  | ok (r : R)
  | conflictError
  | panicked
  deriving DecidableEq

/-- `RefCell::try_borrow`: a shared borrow succeeds unless a mutable borrow
is outstanding. -/
def try_borrow : BorrowSt → Option BorrowSt
  | BorrowSt.free => some (BorrowSt.shared 1)
  | BorrowSt.shared n => some (BorrowSt.shared (n + 1))
  | BorrowSt.exclusive => none

/-- `RefCell::borrow_mut`: a mutable borrow succeeds only when the cell is
unborrowed; otherwise the call panics (modelled by `none`). -/
def borrow_mut : BorrowSt → Option BorrowSt
  | BorrowSt.free => some BorrowSt.exclusive
  | _ => none

/-- `Thing::access` / `Connection::access` (src/lib.rs lines 285-288 and
683-686): `self.inner.try_borrow().unwrap()` panics when the shared borrow
is refused; otherwise the callback runs with the borrow held (the callback
may itself touch the same cell, so it receives the cell state) and the
guard is dropped on normal return.  A panic inside the callback unwinds. -/
def access {R : Type} (c : Cell T) (f : T → Cell T → Outcome R × Cell T) :
    Outcome R × Cell T :=
  match try_borrow c.borrow with
  | none => (Outcome.panicked, c)
  | some b =>
    match f c.data { c with borrow := b } with
    | (Outcome.ok v, c1) => (Outcome.ok v, { c1 with borrow := c.borrow })
    | (r, c1) => (r, c1)

/-- `Thing::access_mut` / `Connection::access_mut` (src/lib.rs lines 305-308
and 691-694): `self.inner.borrow_mut()` panics when any borrow is
outstanding; otherwise the callback runs with the exclusive borrow held. -/
def access_mut {R : Type} (c : Cell T) (f : T → Cell T → Outcome R × Cell T) :
    Outcome R × Cell T :=
  match borrow_mut c.borrow with
  | none => (Outcome.panicked, c)
  | some b =>
    match f c.data { c with borrow := b } with
    | (Outcome.ok v, c1) => (Outcome.ok v, { c1 with borrow := c.borrow })
    | (r, c1) => (r, c1)

section KillLemmas

theorem connKillH_alive_self (ch : List (ConnObj C)) (c : Nat) :
    connAliveH (connKillH ch c) c = false := by
  cases h : ch[c]? with
  | none => simp [connKillH, connAliveH, h]
  | some o =>
    simp only [connKillH, h]
    simp [connAliveH, List.getElem?_set_self (lt_of_getq_some ch c o h)]

theorem connKillH_alive_ne (ch : List (ConnObj C)) (c c' : Nat) (h : c' ≠ c) :
    connAliveH (connKillH ch c) c' = connAliveH ch c' := by
  cases hg : ch[c]? with
  | none => simp [connKillH, hg]
  | some o => simp [connKillH, hg, connAliveH, List.getElem?_set_ne h.symm]

theorem connKillH_dead (ch : List (ConnObj C)) (c c' : Nat)
    (h : connAliveH ch c' = false) : connAliveH (connKillH ch c) c' = false := by
  by_cases hc : c' = c
  · subst hc; exact connKillH_alive_self ch c'
  · rw [connKillH_alive_ne ch c c' hc]; exact h

theorem killConnsH_mono :
    ∀ (cs : List Nat) (ch : List (ConnObj C)) (c : Nat),
      connAliveH ch c = false → connAliveH (killConnsH ch cs).1 c = false
  | [], ch, c, h => h
  | c' :: cs, ch, c, h => by
    by_cases ha : connAliveH ch c' = true
    · simp only [killConnsH, ha, if_true]
      exact killConnsH_mono cs _ c (connKillH_dead ch c' c h)
    · simp only [killConnsH, ha, if_false]
      exact killConnsH_mono cs ch c h

theorem killConnsH_kills :
    ∀ (cs : List Nat) (ch : List (ConnObj C)) (c : Nat), c ∈ cs →
      connAliveH (killConnsH ch cs).1 c = false
  | [], _, _, hm => absurd hm (by simp)
  | c' :: cs, ch, c, hm => by
    by_cases ha : connAliveH ch c' = true
    · simp only [killConnsH, ha, if_true]
      rcases List.mem_cons.mp hm with hc | hc
      · subst hc
        exact killConnsH_mono cs _ c (connKillH_alive_self ch c)
      · exact killConnsH_kills cs _ c hc
    · simp only [killConnsH, ha, if_false]
      rcases List.mem_cons.mp hm with hc | hc
      · subst hc
        exact killConnsH_mono cs ch c (by simpa using ha)
      · exact killConnsH_kills cs ch c hc

theorem thingKillH_dataH (th : List (ThingObj T)) (ch : List (ConnObj C)) (t u : Nat) :
    thingDataH (thingKillH th ch t).1 u = thingDataH th u := by
  cases h : th[t]? with
  | none => simp [thingKillH, h]
  | some o =>
    by_cases hu : u = t
    · subst hu
      simp [thingKillH, h, thingDataH, List.getElem?_set_self (lt_of_getq_some th u o h)]
    · simp [thingKillH, h, thingDataH, List.getElem?_set_ne (fun he => hu he.symm)]

theorem thingKillH_matchPH (th : List (ThingObj T)) (ch : List (ConnObj C))
    (p : T → Bool) (t u : Nat) :
    matchPH (thingKillH th ch t).1 p u = matchPH th p u := by
  simp [matchPH, thingKillH_dataH]

theorem thingKillH_alive_self (th : List (ThingObj T)) (ch : List (ConnObj C)) (t : Nat) :
    thingAliveH (thingKillH th ch t).1 t = false := by
  cases h : th[t]? with
  | none => simp [thingKillH, h, thingAliveH]
  | some o =>
    simp [thingKillH, h, thingAliveH, List.getElem?_set_self (lt_of_getq_some th t o h)]

theorem thingKillH_alive_ne (th : List (ThingObj T)) (ch : List (ConnObj C)) (t u : Nat)
    (h : u ≠ t) : thingAliveH (thingKillH th ch t).1 u = thingAliveH th u := by
  cases hg : th[t]? with
  | none => simp [thingKillH, hg]
  | some o => simp [thingKillH, hg, thingAliveH, List.getElem?_set_ne (fun he => h he.symm)]

theorem thingKillH_localList (th : List (ThingObj T)) (ch : List (ConnObj C)) (t u : Nat) :
    localListH (thingKillH th ch t).1 u = localListH th u := by
  cases h : th[t]? with
  | none => simp [thingKillH, h]
  | some o =>
    by_cases hu : u = t
    · subst hu
      simp [thingKillH, h, localListH, List.getElem?_set_self (lt_of_getq_some th u o h)]
    · simp [thingKillH, h, localListH, List.getElem?_set_ne (fun he => hu he.symm)]

theorem thingKillH_conn_dead (th : List (ThingObj T)) (ch : List (ConnObj C)) (t : Nat) :
    ∀ c ∈ localListH th t, connAliveH (thingKillH th ch t).2.1 c = false := by
  cases h : th[t]? with
  | none => simp [localListH, h]
  | some o =>
    intro c hc
    simp only [localListH, h] at hc
    simp only [thingKillH, h]
    exact killConnsH_kills o.connections ch c hc

theorem thingKillH_conn_mono (th : List (ThingObj T)) (ch : List (ConnObj C)) (t c : Nat)
    (h : connAliveH ch c = false) : connAliveH (thingKillH th ch t).2.1 c = false := by
  cases hg : th[t]? with
  | none => simpa [thingKillH, hg] using h
  | some o =>
    simp only [thingKillH, hg]
    exact killConnsH_mono o.connections ch c h

theorem killThingsGo_dataH :
    ∀ (ts : List Nat) (th : List (ThingObj T)) (ch : List (ConnObj C)) (dead : Nat)
      (p : T → Bool) (u : Nat),
      thingDataH (killThingsGo th ch dead p ts).1 u = thingDataH th u
  | [], _, _, _, _, _ => rfl
  | t :: ts, th, ch, dead, p, u => by
    by_cases h : matchPH th p t = true
    · simp only [killThingsGo, h, if_true]
      rw [killThingsGo_dataH ts _ _ _ p u, thingKillH_dataH]
    · simp only [killThingsGo, h, if_false]
      exact killThingsGo_dataH ts th ch dead p u

theorem killThingsGo_matchPH (ts : List Nat) (th : List (ThingObj T))
    (ch : List (ConnObj C)) (dead : Nat) (p q : T → Bool) (u : Nat) :
    matchPH (killThingsGo th ch dead p ts).1 q u = matchPH th q u := by
  simp [matchPH, killThingsGo_dataH]

theorem killThingsGo_localList :
    ∀ (ts : List Nat) (th : List (ThingObj T)) (ch : List (ConnObj C)) (dead : Nat)
      (p : T → Bool) (u : Nat),
      localListH (killThingsGo th ch dead p ts).1 u = localListH th u
  | [], _, _, _, _, _ => rfl
  | t :: ts, th, ch, dead, p, u => by
    by_cases h : matchPH th p t = true
    · simp only [killThingsGo, h, if_true]
      rw [killThingsGo_localList ts _ _ _ p u, thingKillH_localList]
    · simp only [killThingsGo, h, if_false]
      exact killThingsGo_localList ts th ch dead p u

theorem killThingsGo_thing_mono :
    ∀ (ts : List Nat) (th : List (ThingObj T)) (ch : List (ConnObj C)) (dead : Nat)
      (p : T → Bool) (u : Nat), thingAliveH th u = false →
      thingAliveH (killThingsGo th ch dead p ts).1 u = false
  | [], _, _, _, _, _, h => h
  | t :: ts, th, ch, dead, p, u, h => by
    by_cases hm : matchPH th p t = true
    · simp only [killThingsGo, hm, if_true]
      refine killThingsGo_thing_mono ts _ _ _ p u ?_
      by_cases hu : u = t
      · subst hu; exact thingKillH_alive_self th ch u
      · rw [thingKillH_alive_ne th ch t u hu]; exact h
    · simp only [killThingsGo, hm, if_false]
      exact killThingsGo_thing_mono ts th ch dead p u h

theorem killThingsGo_conn_mono :
    ∀ (ts : List Nat) (th : List (ThingObj T)) (ch : List (ConnObj C)) (dead : Nat)
      (p : T → Bool) (c : Nat), connAliveH ch c = false →
      connAliveH (killThingsGo th ch dead p ts).2.1 c = false
  | [], _, _, _, _, _, h => h
  | t :: ts, th, ch, dead, p, c, h => by
    by_cases hm : matchPH th p t = true
    · simp only [killThingsGo, hm, if_true]
      exact killThingsGo_conn_mono ts _ _ _ p c (thingKillH_conn_mono th ch t c h)
    · simp only [killThingsGo, hm, if_false]
      exact killThingsGo_conn_mono ts th ch dead p c h

theorem killThingsGo_nonmatch :
    ∀ (ts : List Nat) (th : List (ThingObj T)) (ch : List (ConnObj C)) (dead : Nat)
      (p : T → Bool) (u : Nat), matchPH th p u = false →
      thingAliveH (killThingsGo th ch dead p ts).1 u = thingAliveH th u
  | [], _, _, _, _, _, _ => rfl
  | t :: ts, th, ch, dead, p, u, h => by
    by_cases hm : matchPH th p t = true
    · simp only [killThingsGo, hm, if_true]
      have hu : u ≠ t := fun he => by rw [he] at h; rw [h] at hm; exact Bool.false_ne_true hm
      rw [killThingsGo_nonmatch ts _ _ _ p u (by rw [thingKillH_matchPH]; exact h),
        thingKillH_alive_ne th ch t u hu]
    · simp only [killThingsGo, hm, if_false]
      exact killThingsGo_nonmatch ts th ch dead p u h

theorem killThingsGo_kills :
    ∀ (ts : List Nat) (th : List (ThingObj T)) (ch : List (ConnObj C)) (dead : Nat)
      (p : T → Bool) (t : Nat), t ∈ ts → matchPH th p t = true →
      thingAliveH (killThingsGo th ch dead p ts).1 t = false ∧
      ∀ c ∈ localListH th t, connAliveH (killThingsGo th ch dead p ts).2.1 c = false
  | [], _, _, _, _, _, hm, _ => absurd hm (by simp)
  | t' :: ts, th, ch, dead, p, t, hm, hp => by
    by_cases hm' : matchPH th p t' = true
    · simp only [killThingsGo, hm', if_true]
      rcases List.mem_cons.mp hm with hc | hc
      · subst hc
        constructor
        · exact killThingsGo_thing_mono ts _ _ _ p t (thingKillH_alive_self th ch t)
        · intro c hcm
          exact killThingsGo_conn_mono ts _ _ _ p c
            (thingKillH_conn_dead th ch t c hcm)
      · have hp' : matchPH (thingKillH th ch t').1 p t = true := by
          rw [thingKillH_matchPH]; exact hp
        have ih := killThingsGo_kills ts (thingKillH th ch t').1
          (thingKillH th ch t').2.1 (satAdd dead (thingKillH th ch t').2.2) p t hc hp'
        refine ⟨ih.1, ?_⟩
        intro c hcm
        exact ih.2 c (by rwa [thingKillH_localList])
    · simp only [killThingsGo, hm', if_false]
      rcases List.mem_cons.mp hm with hc | hc
      · subst hc; rw [hp] at hm'; exact absurd rfl hm'
      · exact killThingsGo_kills ts th ch dead p t hc hp

end KillLemmas

section CleanLemmas

/-- A thing cell whose local list survives the dead-entry filter unchanged
(the state `Thing::clean` leaves a cell in). -/
def cellFiltered (ch : List (ConnObj C)) (th : List (ThingObj T)) (t : Nat) : Prop :=
  ∀ o, th[t]? = some o →
    o.connections.filter (fun c => connAliveH ch c) = o.connections

theorem thingCleanH_alive (ch : List (ConnObj C)) (th : List (ThingObj T)) (t u : Nat) :
    thingAliveH (thingCleanH ch th t) u = thingAliveH th u := by
  cases h : th[t]? with
  | none => simp [thingCleanH, h]
  | some o =>
    by_cases hu : u = t
    · subst hu
      simp [thingCleanH, h, thingAliveH, List.getElem?_set_self (lt_of_getq_some th u o h)]
    · simp [thingCleanH, h, thingAliveH, List.getElem?_set_ne (fun he => hu he.symm)]

theorem thingCleanH_filtered_self (ch : List (ConnObj C)) (th : List (ThingObj T)) (t : Nat) :
    cellFiltered ch (thingCleanH ch th t) t := by
  cases h : th[t]? with
  | none => intro o ho; simp only [thingCleanH, h] at ho; exact absurd ho (by simp)
  | some o =>
    intro o' ho'
    simp only [thingCleanH, h] at ho'
    rw [List.getElem?_set_self (lt_of_getq_some th t o h)] at ho'
    cases Option.some_inj.mp ho'
    exact filter_idem _ o.connections

theorem thingCleanH_filtered_mono (ch : List (ConnObj C)) (th : List (ThingObj T)) (t u : Nat)
    (h : cellFiltered ch th u) : cellFiltered ch (thingCleanH ch th t) u := by
  by_cases hu : u = t
  · subst hu; exact thingCleanH_filtered_self ch th u
  · intro o ho
    refine h o ?_
    cases hg : th[t]? with
    | none => simpa [thingCleanH, hg] using ho
    | some o2 =>
      simp only [thingCleanH, hg] at ho
      rwa [List.getElem?_set_ne (fun he => hu he.symm)] at ho

theorem cleanThingsGo_alive :
    ∀ (ts : List Nat) (th : List (ThingObj T)) (ch : List (ConnObj C)) (u : Nat),
      thingAliveH (cleanThingsGo ch th ts).1 u = thingAliveH th u
  | [], _, _, _ => rfl
  | t :: ts, th, ch, u => by
    by_cases h : thingAliveH th t = true
    · simp only [cleanThingsGo, h, if_true]
      rw [cleanThingsGo_alive ts _ ch u, thingCleanH_alive]
    · simp only [cleanThingsGo, h, if_false]
      exact cleanThingsGo_alive ts th ch u

theorem cleanThingsGo_filtered_mono :
    ∀ (ts : List Nat) (th : List (ThingObj T)) (ch : List (ConnObj C)) (u : Nat),
      cellFiltered ch th u → cellFiltered ch (cleanThingsGo ch th ts).1 u
  | [], _, _, _, h => h
  | t :: ts, th, ch, u, h => by
    by_cases ha : thingAliveH th t = true
    · simp only [cleanThingsGo, ha, if_true]
      exact cleanThingsGo_filtered_mono ts _ ch u (thingCleanH_filtered_mono ch th t u h)
    · simp only [cleanThingsGo, ha, if_false]
      exact cleanThingsGo_filtered_mono ts th ch u h

theorem cleanThingsGo_kept :
    ∀ (ts : List Nat) (th : List (ThingObj T)) (ch : List (ConnObj C)),
      ∀ t ∈ (cleanThingsGo ch th ts).2,
        thingAliveH (cleanThingsGo ch th ts).1 t = true ∧
        cellFiltered ch (cleanThingsGo ch th ts).1 t
  | [], _, _, t, hm => absurd hm (by simp [cleanThingsGo])
  | t' :: ts, th, ch, t, hm => by
    by_cases ha : thingAliveH th t' = true
    · simp only [cleanThingsGo, ha, if_true] at hm ⊢
      rcases List.mem_cons.mp hm with hc | hc
      · subst hc
        constructor
        · rw [cleanThingsGo_alive, thingCleanH_alive]; exact ha
        · exact cleanThingsGo_filtered_mono ts _ ch t (thingCleanH_filtered_self ch th t)
      · exact cleanThingsGo_kept ts _ ch t hc
    · simp only [cleanThingsGo, ha, if_false] at hm ⊢
      exact cleanThingsGo_kept ts th ch t hm

theorem thingCleanH_id (ch : List (ConnObj C)) (th : List (ThingObj T)) (t : Nat)
    (hf : cellFiltered ch th t) :
    thingCleanH ch th t = th := by
  cases h : th[t]? with
  | none => simp [thingCleanH, h]
  | some o =>
    simp only [thingCleanH, h]
    rw [hf o h]
    exact set_getq_eq th t o h

theorem cleanThingsGo_id :
    ∀ (ts : List Nat) (th : List (ThingObj T)) (ch : List (ConnObj C)),
      (∀ t ∈ ts, thingAliveH th t = true ∧ cellFiltered ch th t) →
      cleanThingsGo ch th ts = (th, ts)
  | [], _, _, _ => rfl
  | t :: ts, th, ch, h => by
    have ht := h t (List.mem_cons_self t ts)
    simp only [cleanThingsGo, ht.1, if_true]
    rw [thingCleanH_id ch th t ht.2]
    rw [cleanThingsGo_id ts th ch (fun u hu => h u (List.mem_cons_of_mem t hu))]

end CleanLemmas

section CountingLemmas

theorem satAdd_le (a b : Nat) : satAdd a b ≤ USIZE_MAX := by
  unfold satAdd USIZE_MAX
  split <;> omega

theorem satAdd_satAdd (a b c : Nat) : satAdd (satAdd a b) c = satAdd a (b + c) := by
  unfold satAdd USIZE_MAX
  split <;> split <;> split <;> omega

theorem satAdd_self (a : Nat) (h : a ≤ USIZE_MAX) : satAdd a 0 = a := by
  unfold USIZE_MAX at h
  unfold satAdd USIZE_MAX
  split <;> omega

/-- The per-thing dead-item tally of a `kill_things` sweep, phrased as the
specification does: each matching thing contributes one plus the number of
its local connections still alive at the moment it is killed. -/
def killTally : List (ThingObj T) → List (ConnObj C) → (T → Bool) → List Nat → Nat
  | _, _, _, [] => 0
  | th, ch, p, t :: ts =>
    if matchPH th p t then
      (thingKillH th ch t).2.2 +
        killTally (thingKillH th ch t).1 (thingKillH th ch t).2.1 p ts
    else
      killTally th ch p ts

theorem killThingsGo_dead :
    ∀ (ts : List Nat) (th : List (ThingObj T)) (ch : List (ConnObj C)) (dead : Nat)
      (p : T → Bool), dead ≤ USIZE_MAX →
      (killThingsGo th ch dead p ts).2.2 = satAdd dead (killTally th ch p ts)
  | [], th, ch, dead, p, h => by
    simp only [killThingsGo, killTally]
    exact (satAdd_self dead h).symm
  | t :: ts, th, ch, dead, p, h => by
    by_cases hm : matchPH th p t = true
    · simp only [killThingsGo, killTally, hm, if_true]
      rw [killThingsGo_dead ts _ _ _ p (satAdd_le dead _), satAdd_satAdd]
    · simp only [killThingsGo, killTally, hm, if_false]
      exact killThingsGo_dead ts th ch dead p h

theorem connectH_length (th : List (ThingObj T)) (t c : Nat) :
    (connectH th t c).length = th.length := by
  cases h : th[t]? with
  | none => simp [connectH, h]
  | some o => simp [connectH, h]

theorem connectH_ll_self (th : List (ThingObj T)) (t c : Nat) (h : t < th.length) :
    localListH (connectH th t c) t = localListH th t ++ [c] := by
  have hg : th[t]? = some th[t] := List.getElem?_eq_getElem h
  simp [connectH, hg, localListH, List.getElem?_set_self h]

theorem connectH_ll_ne (th : List (ThingObj T)) (t u c : Nat) (h : u ≠ t) :
    localListH (connectH th t c) u = localListH th u := by
  cases hg : th[t]? with
  | none => simp [connectH, hg]
  | some o =>
    simp [connectH, hg, localListH, List.getElem?_set_ne (fun he => h he.symm)]

theorem connect_twice_mem (th : List (ThingObj T)) (x y c : Nat)
    (hx : x < th.length) (hy : y < th.length) :
    c ∈ localListH (connectH (connectH th x c) y c) x ∧
    c ∈ localListH (connectH (connectH th x c) y c) y := by
  have hy' : y < (connectH th x c).length := by rwa [connectH_length]
  by_cases hxy : y = x
  · subst hxy
    rw [connectH_ll_self _ _ _ hy', connectH_ll_self _ _ _ hx]
    simp
  · constructor
    · rw [connectH_ll_ne _ _ _ _ (fun he => hxy he.symm), connectH_ll_self _ _ _ hx]
      simp
    · rw [connectH_ll_self _ _ _ hy']
      simp

theorem count_connect_twice (th : List (ThingObj T)) (x c : Nat)
    (hx : x < th.length) :
    (localListH (connectH (connectH th x c) x c) x).count c
      = (localListH th x).count c + 2 := by
  have hx' : x < (connectH th x c).length := by rwa [connectH_length]
  rw [connectH_ll_self _ _ _ hx', connectH_ll_self _ _ _ hx]
  simp [List.count_append]

theorem filterMap_take_eq_count (v : Nat) : ∀ l : List Nat,
    (l.filterMap (fun c => if c = v then some c else none)).length = l.count v
  | [] => rfl
  | x :: xs => by
    by_cases h : x = v
    · simp [List.filterMap_cons, h, List.count_cons, filterMap_take_eq_count v xs]
    · simp [List.filterMap_cons, List.count_cons, h, Ne.symm h,
        filterMap_take_eq_count v xs]

end CountingLemmas

section Examples

/-- An empty container over `Nat` payloads. -/
def exEmpty : Things Nat Nat := Things.new

/-- One registered thing (handle 0, payload 0), no connections. -/
def exOne : Things Nat Nat := (exEmpty.new_thing 0).1

/-- `exOne` plus a directed self-loop on thing 0 (connection handle 0). -/
def exLoop : Things Nat Nat := (exOne.new_directed_connection 0 5 0).1

/-- `exOne` after two complete `kill_things` sweeps that both match the one
registered thing: the dead counter is bumped on each sweep. -/
def exTwiceKilled : Things Nat Nat :=
  ((exOne.kill_things (fun _ => true)).kill_things (fun _ => true))

/-- Chain scenario of the specification: things A (0), B (1), C (2). -/
def chainThree : Things Nat Nat :=
  ((((Things.new : Things Nat Nat).new_thing 0).1.new_thing 1).1.new_thing 2).1

/-- Chain plus the directed connection A to B (handle 0). -/
def chainFour : Things Nat Nat := (chainThree.new_directed_connection 0 10 1).1

/-- Chain plus the directed connection B to C (handle 1). -/
def chainFive : Things Nat Nat := (chainFour.new_directed_connection 1 11 2).1

/-- The chain after a `kill_things` sweep matching only B. -/
def chainKilled : Things Nat Nat := chainFive.kill_things (fun d => d == 1)

end Examples

section Claims

/-- C1: the claim says `kill_connections` increments `dead_amount` by one
per killed connection.  Evaluating the embedded code on a container with
one alive connection and a matching predicate: the connection is killed,
yet `dead_amount` stays 0 (the source computes
`self.dead_amount.saturating_add(1)` and discards the result), where the
claim requires it to become 1. -/
theorem kill_connections_count_unchanged :
    connAliveH exLoop.connHeap 0 = true ∧
    connAliveH (exLoop.kill_connections (fun _ => true)).connHeap 0 = false ∧
    exLoop.dead_amount = 0 ∧
    (exLoop.kill_connections (fun _ => true)).dead_amount = 0 :=
  ⟨rfl, rfl, rfl, rfl⟩

/-- C2 counterexample: a container state reached by registering one thing
and running two full `kill_things` sweeps has a positive registry total but
`dead_percentage` returns `Ok 200`, outside the claimed `[0, 100]` range. -/
theorem dead_percentage_over_100 :
    (exTwiceKilled.dead_percentage).2 = Except.ok 200 ∧
    0 < exTwiceKilled.things.length + exTwiceKilled.connections.length ∧
    ¬(200 ≤ 100) :=
  ⟨rfl, by decide, by decide⟩

/-- C2 amended: `dead_percentage` fails with `EmptyGraph` exactly when the
registry total is zero; on a positive total it returns `Ok` with a value
that is at most 100 whenever `dead_amount` does not exceed the registry
total (without that extra bound the value can exceed 100, see the
counterexample). -/
theorem dead_percentage_ok_and_empty_iff (s : Things T C) :
    ((s.dead_percentage).2 = Except.error () ↔
      s.things.length + s.connections.length = 0) ∧
    (0 < s.things.length + s.connections.length →
      ∃ v, (s.dead_percentage).2 = Except.ok v ∧
        (s.dead_amount ≤ satAdd s.things.length s.connections.length → v ≤ 100)) := by
  have htot : satAdd s.things.length s.connections.length = 0 ↔
      s.things.length + s.connections.length = 0 := by
    unfold satAdd USIZE_MAX
    split <;> omega
  constructor
  · by_cases h : satAdd s.things.length s.connections.length = 0
    · simp only [Things.dead_percentage, h, if_pos rfl]
      simpa using htot.mp h
    · simp only [Things.dead_percentage, if_neg h]
      simp only [htot] at h
      simp [h]
  · intro hpos
    have h : ¬ satAdd s.things.length s.connections.length = 0 := by
      rw [htot]; omega
    refine ⟨satMul s.dead_amount 100 / satAdd s.things.length s.connections.length,
      by simp [Things.dead_percentage, h], ?_⟩
    intro hd
    have htpos : 0 < satAdd s.things.length s.connections.length := Nat.pos_of_ne_zero h
    have hmul : satMul s.dead_amount 100 ≤ s.dead_amount * 100 := by
      unfold satMul USIZE_MAX
      split <;> omega
    have hle : satMul s.dead_amount 100 ≤
        satAdd s.things.length s.connections.length * 100 :=
      le_trans hmul (Nat.mul_le_mul_right 100 hd)
    calc satMul s.dead_amount 100 / satAdd s.things.length s.connections.length
        ≤ satAdd s.things.length s.connections.length * 100 /
            satAdd s.things.length s.connections.length :=
          Nat.div_le_div_right hle
      _ = 100 := by rw [Nat.mul_comm, Nat.mul_div_cancel _ htpos]

/-- C2 witness: on a container with one thing and one connection the amended
statement yields a concrete in-range percentage. -/
theorem dead_percentage_ok_and_empty_iff_witness :
    ∃ v, (exLoop.dead_percentage).2 = Except.ok v ∧ v ≤ 100 := by
  obtain ⟨v, hv, hb⟩ := (dead_percentage_ok_and_empty_iff exLoop).2 (by decide)
  exact ⟨v, hv, hb (by decide)⟩

/-- C4: on a registry total in `(0, usize::MAX]` the percentage is exactly
the floor of the saturating product `dead_amount * 100` divided by
`things.len() + connections.len()`, and the state is untouched; on a zero
total it fails with `EmptyGraph` and, in that branch only, resets
`dead_amount` to 0. -/
theorem dead_percentage_formula (s : Things T C) :
    (s.things.length + s.connections.length ≤ USIZE_MAX →
      0 < s.things.length + s.connections.length →
      s.dead_percentage =
        (s, Except.ok (satMul s.dead_amount 100 /
          (s.things.length + s.connections.length)))) ∧
    (s.things.length + s.connections.length = 0 →
      s.dead_percentage = ({ s with dead_amount := 0 }, Except.error ())) := by
  constructor
  · intro hle hpos
    have hsat : satAdd s.things.length s.connections.length =
        s.things.length + s.connections.length := by
      unfold USIZE_MAX at hle
      unfold satAdd USIZE_MAX
      split <;> omega
    rw [Things.dead_percentage, hsat, if_neg (by omega)]
  · intro h0
    have hsat : satAdd s.things.length s.connections.length = 0 := by
      unfold satAdd USIZE_MAX
      split <;> omega
    rw [Things.dead_percentage, if_pos hsat]

/-- C4 witness: the formula evaluated on a one-thing, one-connection
container. -/
theorem dead_percentage_formula_witness :
    exLoop.dead_percentage = (exLoop, Except.ok 0) :=
  (dead_percentage_formula exLoop).1 (by decide) (by decide)

/-- C5: after `kill_things p`, every registered thing matching `p` is dead,
every connection on a matching thing's local list that was alive before the
sweep is dead, and every registered thing not matching `p` keeps exactly the
liveness it had before. -/
theorem kill_things_liveness (s : Things T C) (p : T → Bool) :
    (∀ t ∈ s.things, matchPH s.thingHeap p t = true →
        thingAliveH (s.kill_things p).thingHeap t = false) ∧
    (∀ t ∈ s.things, matchPH s.thingHeap p t = true →
        ∀ c ∈ localListH s.thingHeap t, connAliveH s.connHeap c = true →
          connAliveH (s.kill_things p).connHeap c = false) ∧
    (∀ t ∈ s.things, matchPH s.thingHeap p t = false →
        thingAliveH (s.kill_things p).thingHeap t = thingAliveH s.thingHeap t) :=
  ⟨fun t ht hm =>
      (killThingsGo_kills s.things s.thingHeap s.connHeap s.dead_amount p t ht hm).1,
   fun t ht hm c hc _ =>
      (killThingsGo_kills s.things s.thingHeap s.connHeap s.dead_amount p t ht hm).2 c hc,
   fun t _ hm =>
      killThingsGo_nonmatch s.things s.thingHeap s.connHeap s.dead_amount p t hm⟩

/-- C5 witness: in the chain A(0) to B(1) to C(2) with connections 0 and 1,
killing by payload-equals-B leaves B dead, the previously alive connection 0
dead, and the non-matching thing A untouched (still alive). -/
theorem kill_things_liveness_witness :
    thingAliveH chainKilled.thingHeap 1 = false ∧
    connAliveH chainKilled.connHeap 0 = false ∧
    thingAliveH chainKilled.thingHeap 0 = true := by
  have h := kill_things_liveness chainFive (fun d => d == 1)
  refine ⟨h.1 1 (by decide) (by decide),
    h.2.1 1 (by decide) (by decide) 0 (by decide) (by decide), ?_⟩
  show thingAliveH (chainFive.kill_things (fun d => d == 1)).thingHeap 0 = true
  rw [h.2.2 0 (by decide) (by decide)]
  decide

/-- C6: `kill_things` grows `dead_amount`, with saturating addition, by the
sum over matching things of one plus the number of that thing's local
connections alive at the moment it is killed (`killTally`); in particular
the fresh chain A to B to C with two directed connections ends with
`dead_amount = 3` after killing only B. -/
theorem kill_things_dead_amount :
    (∀ (A B : Type) (s : Things A B) (p : A → Bool), s.dead_amount ≤ USIZE_MAX →
        (s.kill_things p).dead_amount =
          satAdd s.dead_amount (killTally s.thingHeap s.connHeap p s.things)) ∧
    chainKilled.dead_amount = 3 :=
  ⟨fun _ _ s p h => killThingsGo_dead s.things s.thingHeap s.connHeap s.dead_amount p h,
   by decide⟩

/-- C6 witness: the saturating tally equation evaluated on the chain
container with the kill-B predicate. -/
theorem kill_things_dead_amount_witness :
    (chainFive.kill_things (fun d => d == 1)).dead_amount =
      satAdd chainFive.dead_amount
        (killTally chainFive.thingHeap chainFive.connHeap (fun d => d == 1)
          chainFive.things) :=
  kill_things_dead_amount.1 Nat Nat chainFive (fun d => d == 1) (by decide)

/-- C8 counterexample: on the empty container `clean` is callable twice and
leaves everything empty, but `dead_percentage` then returns the EmptyGraph
error, not `Ok 0` as the claim requires for every container state. -/
theorem clean_empty_dead_percentage_error :
    (exEmpty.clean.dead_percentage).2 = Except.error () ∧
    (exEmpty.clean.clean.dead_percentage).2 = Except.error () :=
  ⟨rfl, rfl⟩

/-- C8 amended: `clean` is idempotent on the whole container state (thing
registry, connection registry, per-thing local lists, heaps and counter),
and `dead_percentage` returns `Ok 0` after the first and the second call
provided the cleaned registry total is positive; on a fully dead graph it
returns the EmptyGraph error instead (see the counterexample). -/
theorem clean_idempotent (s : Things T C) :
    s.clean.clean = s.clean ∧
    (0 < s.clean.things.length + s.clean.connections.length →
      (s.clean.dead_percentage).2 = Except.ok 0 ∧
      (s.clean.clean.dead_percentage).2 = Except.ok 0) := by
  have hid : cleanThingsGo s.connHeap (cleanThingsGo s.connHeap s.thingHeap s.things).1
      (cleanThingsGo s.connHeap s.thingHeap s.things).2
      = ((cleanThingsGo s.connHeap s.thingHeap s.things).1,
         (cleanThingsGo s.connHeap s.thingHeap s.things).2) :=
    cleanThingsGo_id _ _ _ (cleanThingsGo_kept s.things s.thingHeap s.connHeap)
  have h1 : s.clean.clean = s.clean := by
    simp only [Things.clean, hid, filter_idem]
  refine ⟨h1, fun hpos => ?_⟩
  have h : ¬ satAdd s.clean.things.length s.clean.connections.length = 0 := by
    unfold satAdd USIZE_MAX
    split <;> omega
  have hd : s.clean.dead_amount = 0 := rfl
  have hok : (s.clean.dead_percentage).2 = Except.ok 0 := by
    simp only [Things.dead_percentage, if_neg h, hd]
    simp [satMul, USIZE_MAX]
  exact ⟨hok, by rw [h1]; exact hok⟩

/-- C8 witness: on the chain container (all things alive) the cleaned
registry total is positive and both percentage reads return `Ok 0`. -/
theorem clean_idempotent_witness :
    chainFive.clean.clean = chainFive.clean ∧
    (chainFive.clean.dead_percentage).2 = Except.ok 0 ∧
    (chainFive.clean.clean.dead_percentage).2 = Except.ok 0 := by
  have h := clean_idempotent chainFive
  have h2 := h.2 (by decide)
  exact ⟨h.1, h2.1, h2.2⟩

/-- C7: a connection created by either factory is, at the moment the call
returns, on both endpoint things' local lists and in the container's
connection registry. -/
theorem new_connection_registered (s : Things T C) (src dst a b : Nat) (d1 d2 : C)
    (h1 : src < s.thingHeap.length) (h2 : dst < s.thingHeap.length)
    (h3 : a < s.thingHeap.length) (h4 : b < s.thingHeap.length) :
    ((s.new_directed_connection src d1 dst).2 ∈
        localListH (s.new_directed_connection src d1 dst).1.thingHeap src ∧
      (s.new_directed_connection src d1 dst).2 ∈
        localListH (s.new_directed_connection src d1 dst).1.thingHeap dst ∧
      (s.new_directed_connection src d1 dst).2 ∈
        (s.new_directed_connection src d1 dst).1.connections) ∧
    ((s.new_undirected_connection a b d2).2 ∈
        localListH (s.new_undirected_connection a b d2).1.thingHeap a ∧
      (s.new_undirected_connection a b d2).2 ∈
        localListH (s.new_undirected_connection a b d2).1.thingHeap b ∧
      (s.new_undirected_connection a b d2).2 ∈
        (s.new_undirected_connection a b d2).1.connections) := by
  have hd := connect_twice_mem s.thingHeap src dst s.connHeap.length h1 h2
  have hu := connect_twice_mem s.thingHeap a b s.connHeap.length h3 h4
  exact ⟨⟨hd.1, hd.2, by simp [Things.new_directed_connection]⟩,
    ⟨hu.1, hu.2, by simp [Things.new_undirected_connection]⟩⟩

/-- C7 witness: on the three-thing chain container the directed factory call
registers connection 0 on both endpoint lists and in the registry. -/
theorem new_connection_registered_witness :
    ((chainThree.new_directed_connection 0 10 1).2 ∈
        localListH (chainThree.new_directed_connection 0 10 1).1.thingHeap 0 ∧
      (chainThree.new_directed_connection 0 10 1).2 ∈
        localListH (chainThree.new_directed_connection 0 10 1).1.thingHeap 1 ∧
      (chainThree.new_directed_connection 0 10 1).2 ∈
        (chainThree.new_directed_connection 0 10 1).1.connections) ∧
    ((chainThree.new_undirected_connection 0 2 7).2 ∈
        localListH (chainThree.new_undirected_connection 0 2 7).1.thingHeap 0 ∧
      (chainThree.new_undirected_connection 0 2 7).2 ∈
        localListH (chainThree.new_undirected_connection 0 2 7).1.thingHeap 2 ∧
      (chainThree.new_undirected_connection 0 2 7).2 ∈
        (chainThree.new_undirected_connection 0 2 7).1.connections) :=
  new_connection_registered chainThree 0 1 0 2 10 7
    (by decide) (by decide) (by decide) (by decide)

/-- C10: creating a self-loop on thing `x` (directed with both endpoints the
same handle, or undirected with an aliased pair) appends the new connection
to `x`'s local list twice, so `do_for_all_connections` visits it two times,
while the container registry holds it exactly once.  The hypotheses say the
state has no dangling handles, which every state built by the factories
satisfies. -/
theorem self_loop_double_entry (s : Things T C) (x : Nat) (d1 d2 : C)
    (hx : x < s.thingHeap.length)
    (hl : ∀ c ∈ localListH s.thingHeap x, c < s.connHeap.length)
    (hr : ∀ c ∈ s.connections, c < s.connHeap.length) :
    ((localListH (s.new_directed_connection x d1 x).1.thingHeap x).count
        (s.new_directed_connection x d1 x).2 = 2 ∧
      (do_for_all_connections (s.new_directed_connection x d1 x).1 x
        (fun c => if c = (s.new_directed_connection x d1 x).2 then some c else none)).length
        = 2 ∧
      ((s.new_directed_connection x d1 x).1.connections).count
        (s.new_directed_connection x d1 x).2 = 1) ∧
    ((localListH (s.new_undirected_connection x x d2).1.thingHeap x).count
        (s.new_undirected_connection x x d2).2 = 2 ∧
      (do_for_all_connections (s.new_undirected_connection x x d2).1 x
        (fun c => if c = (s.new_undirected_connection x x d2).2 then some c else none)).length
        = 2 ∧
      ((s.new_undirected_connection x x d2).1.connections).count
        (s.new_undirected_connection x x d2).2 = 1) := by
  have hfresh : (localListH s.thingHeap x).count s.connHeap.length = 0 :=
    List.count_eq_zero.mpr (fun hmem => absurd (hl _ hmem) (by omega))
  have hreg : (s.connections).count s.connHeap.length = 0 :=
    List.count_eq_zero.mpr (fun hmem => absurd (hr _ hmem) (by omega))
  have hll : (localListH (connectH (connectH s.thingHeap x s.connHeap.length) x
      s.connHeap.length) x).count s.connHeap.length = 2 := by
    rw [count_connect_twice s.thingHeap x s.connHeap.length hx, hfresh]
  have hregistry : (s.connections ++ [s.connHeap.length]).count s.connHeap.length = 1 := by
    simp [List.count_append, hreg]
  exact ⟨⟨hll, by rw [do_for_all_connections, filterMap_take_eq_count]; exact hll, hregistry⟩,
    ⟨hll, by rw [do_for_all_connections, filterMap_take_eq_count]; exact hll, hregistry⟩⟩

/-- C10 witness: the self-loop on the one-thing container appears twice on
the local list, is visited twice by the visitor, and once in the registry. -/
theorem self_loop_double_entry_witness :
    (localListH (exOne.new_directed_connection 0 5 0).1.thingHeap 0).count
        (exOne.new_directed_connection 0 5 0).2 = 2 ∧
    (do_for_all_connections (exOne.new_directed_connection 0 5 0).1 0
        (fun c => if c = (exOne.new_directed_connection 0 5 0).2 then some c else none)).length
      = 2 ∧
    ((exOne.new_directed_connection 0 5 0).1.connections).count
        (exOne.new_directed_connection 0 5 0).2 = 1 :=
  (self_loop_double_entry exOne 0 5 5 (by decide) (by decide) (by decide)).1

/-- C9 counterexample: comparisons are by payload equality, and the source
checks the `from` endpoint first.  For a directed connection whose two
endpoints carry equal payloads, a query thing equal to the `to` endpoint
gets `AwayFrom`, not `Towards` as the claim requires: with both endpoints 0,
`get_direction_relative_to 0` is `AwayFrom` even though `0` equals the `to`
endpoint. -/
theorem direction_equal_payload_endpoints :
    (ConnInner.directed 0 0 7 true : ConnInner Nat Nat).get_direction_relative_to 0
      = Except.ok Direction.AwayFrom ∧
    Direction.AwayFrom ≠ Direction.Towards :=
  ⟨rfl, by decide⟩

/-- C9 amended: `get_direction_relative_to` fails exactly when the
connection is undirected or the thing is not an endpoint (by payload
equality); for a directed connection it checks `from` first, so a thing
equal to `from` gets `AwayFrom`, and a thing equal to `to` but not `from`
gets `Towards`.  `get_other_thing` fails exactly when the thing is not an
endpoint; otherwise the first-match endpoint's partner is returned, for
both directed and undirected connections. -/
theorem direction_other_endpoint_spec [DecidableEq T] (ci : ConnInner T C) (x : T) :
    (ci.get_direction_relative_to x = Except.error () ↔
      (ci.is_undirected = true ∨ ci.contains x = false)) ∧
    (∀ src dst dd al, ci = ConnInner.directed src dst dd al →
      (x = src → ci.get_direction_relative_to x = Except.ok Direction.AwayFrom) ∧
      (x = dst → x ≠ src → ci.get_direction_relative_to x = Except.ok Direction.Towards)) ∧
    (ci.get_other_thing x = Except.error () ↔ ci.contains x = false) ∧
    (∀ src dst dd al, ci = ConnInner.directed src dst dd al →
      (x = src → ci.get_other_thing x = Except.ok dst) ∧
      (x = dst → x ≠ src → ci.get_other_thing x = Except.ok src)) ∧
    (∀ u v dd al, ci = ConnInner.undirected u v dd al →
      (x = u → ci.get_other_thing x = Except.ok v) ∧
      (x = v → x ≠ u → ci.get_other_thing x = Except.ok u)) := by
  cases ci with
  | directed src dst dd al =>
    refine ⟨?_, ?_, ?_, ?_, ?_⟩
    · simp only [ConnInner.get_direction_relative_to, ConnInner.is_undirected,
        ConnInner.contains, Bool.false_eq_true, false_or]
      by_cases h1 : x = src
      · rw [if_pos h1, if_pos (Or.inl h1.symm)]
        simp
      · by_cases h2 : x = dst
        · rw [if_neg h1, if_pos h2, if_pos (Or.inr h2.symm)]
          simp
        · rw [if_neg h1, if_neg h2,
            if_neg (fun hor : src = x ∨ dst = x =>
              hor.elim (fun he => h1 he.symm) (fun he => h2 he.symm))]
          simp
    · intro src' dst' dd' al' heq
      cases heq
      constructor
      · intro hx
        simp only [ConnInner.get_direction_relative_to]
        rw [if_pos hx]
      · intro hx hne
        simp only [ConnInner.get_direction_relative_to]
        rw [if_neg hne, if_pos hx]
    · simp only [ConnInner.get_other_thing, ConnInner.contains]
      by_cases h1 : x = src
      · rw [if_pos h1, if_pos (Or.inl h1.symm)]
        simp
      · by_cases h2 : x = dst
        · rw [if_neg h1, if_pos h2, if_pos (Or.inr h2.symm)]
          simp
        · rw [if_neg h1, if_neg h2,
            if_neg (fun hor : src = x ∨ dst = x =>
              hor.elim (fun he => h1 he.symm) (fun he => h2 he.symm))]
          simp
    · intro src' dst' dd' al' heq
      cases heq
      constructor
      · intro hx
        simp only [ConnInner.get_other_thing]
        rw [if_pos hx]
      · intro hx hne
        simp only [ConnInner.get_other_thing]
        rw [if_neg hne, if_pos hx]
    · intro u v dd' al' heq
      cases heq
  | undirected u v dd al =>
    refine ⟨?_, ?_, ?_, ?_, ?_⟩
    · simp [ConnInner.get_direction_relative_to, ConnInner.is_undirected]
    · intro src' dst' dd' al' heq
      cases heq
    · simp only [ConnInner.get_other_thing, ConnInner.contains]
      by_cases h1 : x = u
      · rw [if_pos h1, if_pos (Or.inl h1.symm)]
        simp
      · by_cases h2 : x = v
        · rw [if_neg h1, if_pos h2, if_pos (Or.inr h2.symm)]
          simp
        · rw [if_neg h1, if_neg h2,
            if_neg (fun hor : u = x ∨ v = x =>
              hor.elim (fun he => h1 he.symm) (fun he => h2 he.symm))]
          simp
    · intro src' dst' dd' al' heq
      cases heq
    · intro u' v' dd' al' heq
      cases heq
      constructor
      · intro hx
        simp only [ConnInner.get_other_thing]
        rw [if_pos hx]
      · intro hx hne
        simp only [ConnInner.get_other_thing]
        rw [if_neg hne, if_pos hx]

/-- C9 witness: a directed connection with distinct endpoint payloads 3 and
4 answers `Towards` and returns the opposite endpoint for the `to` side. -/
theorem direction_other_endpoint_spec_witness :
    (ConnInner.directed 3 4 9 true : ConnInner Nat Nat).get_direction_relative_to 4
      = Except.ok Direction.Towards ∧
    (ConnInner.directed 3 4 9 true : ConnInner Nat Nat).get_other_thing 4
      = Except.ok 3 := by
  have h := direction_other_endpoint_spec
    (ConnInner.directed 3 4 9 true : ConnInner Nat Nat) 4
  exact ⟨(h.2.1 3 4 9 true rfl).2 rfl (by decide),
    (h.2.2.2.1 3 4 9 true rfl).2 rfl (by decide)⟩

/-- C3 counterexample: a reentrant `access_mut` issued from inside an
`access_mut` callback on the same cell ends in a panic (the embedded
`borrow_mut` refuses and the source would panic), not in the recoverable
AccessConflict outcome the claim requires. -/
theorem reentrant_access_not_conflict_error :
    (access_mut (⟨0, BorrowSt.free⟩ : Cell Nat)
        (fun _ c1 => access_mut c1 (fun d c2 => (Outcome.ok d, c2)))).1
      = Outcome.panicked ∧
    (Outcome.panicked : Outcome Nat) ≠ Outcome.conflictError :=
  ⟨rfl, by decide⟩

/-- C3 amended: a reentrant `access_mut` during an outstanding `access` or
`access_mut` on the same cell fails fast with a panic (it neither runs the
inner callback nor returns an AccessConflict value), and the payload is
left exactly as it was: no state corruption and no deadlock, but a crash
rather than a recoverable error. -/
theorem reentrant_access_mut_panics {R : Type} (c : Cell T)
    (g : T → Cell T → Outcome R × Cell T) (h : c.borrow = BorrowSt.free) :
    (access_mut c (fun _ c1 => access_mut c1 g)).1 = Outcome.panicked ∧
    (access_mut c (fun _ c1 => access_mut c1 g)).2.data = c.data ∧
    (access c (fun _ c1 => access_mut c1 g)).1 = Outcome.panicked ∧
    (access c (fun _ c1 => access_mut c1 g)).2.data = c.data := by
  simp [access, access_mut, try_borrow, borrow_mut, h]

/-- C3 witness: the concrete reentrant call on a fresh cell holding 5. -/
theorem reentrant_access_mut_panics_witness :
    (access_mut (⟨5, BorrowSt.free⟩ : Cell Nat)
        (fun _ c1 => access_mut c1 (fun d c2 => (Outcome.ok d, c2)))).1
      = Outcome.panicked ∧
    (access_mut (⟨5, BorrowSt.free⟩ : Cell Nat)
        (fun _ c1 => access_mut c1 (fun d c2 => (Outcome.ok d, c2)))).2.data = 5 ∧
    (access (⟨5, BorrowSt.free⟩ : Cell Nat)
        (fun _ c1 => access_mut c1 (fun d c2 => (Outcome.ok d, c2)))).1
      = Outcome.panicked ∧
    (access (⟨5, BorrowSt.free⟩ : Cell Nat)
        (fun _ c1 => access_mut c1 (fun d c2 => (Outcome.ok d, c2)))).2.data = 5 :=
  reentrant_access_mut_panics (⟨5, BorrowSt.free⟩ : Cell Nat)
    (fun d c2 => (Outcome.ok d, c2)) rfl

end Claims

end ConnectThings
